import Mathlib

/-!
Verification of the scheduling and conflict-resolution engine of the
`agenda` repository, a shallow embedding of `src/mcp_models/calendar.py`
and `src/pages/todays_plan/logic.py`.

Times-of-day are modelled as natural numbers of seconds in `[0, 86400)`
(`datetime.time` has sub-minute resolution; the claims never hinge on
sub-second precision).  Dates are modelled as day indices (natural
numbers); a full instant is `date * 86400 + timeOfDay` seconds.
Durations (`duration_hours`, a Python float) are modelled in seconds.
String parsing of dates/times (`strptime` / `dateutil`) happens upstream
of every property considered here, so the embedded operations receive
already-parsed values; the natural-language fallback parser is external
to the repository.
-/

namespace Agenda

/-- Seconds in one day. -/
def daySecs : Nat := 86400

/-- A row of the `tasks` table (the persisted ScheduleItem), with the
columns the scheduling engine reads and writes.  `scheduled_date` is a
day index, `start_time` / `end_time` are seconds-of-day. -/
structure TaskRow where
  task_id : Nat
  user_id : Nat
  title : String
  status : String
  priority : String
  category : String
  description : String
  due_date : Option Nat
  scheduled_date : Option Nat
  start_time : Option Nat
  end_time : Option Nat
deriving Repr, DecidableEq

/-- A row of the `calendar_events` table. -/
structure EventRow where
  event_id : Nat
  task_id : Option Nat
  user_id : Nat
  start_time : Option Nat
  end_time : Option Nat
  due_date : Option Nat
  scheduled_date : Option Nat
  event_desc : String
  event_type : String
  google_event_ref : Option Nat
  is_calendar_synced : Bool
deriving Repr, DecidableEq

/-- A row of the `meeting_links` table. -/
structure LinkRow where
  event_id : Nat
  platform : String
  meeting_code : String
  meeting_url : String
deriving Repr, DecidableEq

/-- The local relational store: the three tables the engine touches,
plus the serial id counters backing `RETURNING task_id` /
`RETURNING event_id`. -/
structure DB where
  tasks : List TaskRow
  events : List EventRow
  links : List LinkRow
  nextTaskId : Nat
  nextEventId : Nat
deriving Repr, DecidableEq

/-- The database operations issued by the embedded engine, mirroring the
SQL statements of the source.  `selectTasksOnDate` is the same-day scan
of `check_schedule_conflicts`, `selectTaskCount` its per-day COUNT query,
the remaining constructors are the INSERT / UPDATE statements of
`add_task_to_calendar`, `schedule_meeting` and `update_task_times`. -/
inductive DBOp where
  | selectTasksOnDate (uid d : Nat)
  | selectTaskCount (uid d : Nat)
  | insertTask (r : TaskRow)
  | insertEvent (r : EventRow)
  | insertLink (r : LinkRow)
  | updateTaskTimes (tid s e d : Nat) (status : String)
  | updateEventRef (eid gref : Nat) (markSynced : Bool)
deriving Repr, DecidableEq

/-- Whether an operation is a pure SELECT. -/
def DBOp.isSelect : DBOp → Bool
  | .selectTasksOnDate _ _ => true
  | .selectTaskCount _ _ => true
  | _ => false

/-- Row semantics of the `UPDATE tasks SET start_time, end_time,
scheduled_date, status WHERE task_id = ...` statement: the match is on
`task_id` alone. -/
def updTaskRow (tid s e d : Nat) (status : String) (r : TaskRow) : TaskRow :=
  if r.task_id == tid then
    { r with start_time := some s, end_time := some e,
             scheduled_date := some d, status := status }
  else r

/-- Row semantics of the write-back
`UPDATE calendar_events SET google_event_ref = ... WHERE event_id = ...`
(with `is_calendar_synced = TRUE` added by `schedule_meeting`). -/
def updEventRow (eid gref : Nat) (markSynced : Bool) (r : EventRow) : EventRow :=
  if r.event_id == eid then
    { r with google_event_ref := some gref,
             is_calendar_synced := r.is_calendar_synced || markSynced }
  else r

/-- Semantics of one database operation on the store. -/
def applyOp (db : DB) : DBOp → DB
  | .selectTasksOnDate _ _ => db
  | .selectTaskCount _ _ => db
  | .insertTask r => { db with tasks := db.tasks ++ [r], nextTaskId := db.nextTaskId + 1 }
  | .insertEvent r => { db with events := db.events ++ [r], nextEventId := db.nextEventId + 1 }
  | .insertLink r => { db with links := db.links ++ [r] }
  | .updateTaskTimes tid s e d status =>
      { db with tasks := db.tasks.map (updTaskRow tid s e d status) }
  | .updateEventRef eid gref markSynced =>
      { db with events := db.events.map (updEventRow eid gref markSynced) }

/-- Run a list of database operations in order. -/
def applyOps (db : DB) (ops : List DBOp) : DB :=
  ops.foldl applyOp db

/-- The same-day scan of `check_schedule_conflicts`:
`SELECT ... FROM tasks WHERE user_id = %s AND scheduled_date IS NOT NULL
AND scheduled_date = %s`. -/
def sameDayTasks (db : DB) (uid d : Nat) : List TaskRow :=
  db.tasks.filter fun r => r.user_id == uid && r.scheduled_date == some d

/-- The per-day COUNT query of the alternative-date fallback. -/
def dayTaskCount (db : DB) (uid d : Nat) : Nat :=
  (db.tasks.filter fun r => r.user_id == uid && r.scheduled_date == some d).length

/-- `end_dt.time()` after `datetime.combine(d, s) + timedelta(durSec)`:
the derived end time-of-day, shared by `schedule_meeting` (lines
890-894) and `check_schedule_conflicts` (lines 1219-1224). -/
def deriveEndTod (d s durSec : Nat) : Nat :=
  (d * daySecs + s + durSec) % daySecs

/-- `derive_end`: derived end time-of-day together with the day-rollover
flag (the derived time-of-day is numerically below the start). -/
def deriveEnd (d s durSec : Nat) : Nat × Bool :=
  let e := deriveEndTod d s durSec
  (e, decide (e < s))

/-- The per-row overlap test of `check_schedule_conflicts` (line 1259):
flagged only when the proposal and the row both carry start and end,
via the half-open comparison `start_time < parsed_end_time and
end_time > parsed_start_time` on bare times-of-day. -/
def rowIsOverlap (ps pe : Option Nat) (r : TaskRow) : Bool :=
  match ps, pe, r.start_time, r.end_time with
  | some ps, some pe, some s, some e => decide (s < pe) && decide (e > ps)
  | _, _, _, _ => false

/-- One element of the returned `conflicts` list.  The source serialises
the row times with `strftime` using an hours-minutes pattern, so the
entry keeps only whole minutes (integer division by 60). -/
structure ConflictEntry where
  task_id : Nat
  title : String
  start_min : Option Nat
  end_min : Option Nat
  priority : String
  status : String
  is_time_overlap : Bool
deriving Repr, DecidableEq

/-- Build the conflict entry for one same-day row. -/
def mkConflictEntry (ps pe : Option Nat) (r : TaskRow) : ConflictEntry :=
  { task_id := r.task_id
    title := r.title
    start_min := r.start_time.map (· / 60)
    end_min := r.end_time.map (· / 60)
    priority := r.priority
    status := r.status
    is_time_overlap := rowIsOverlap ps pe r }

/-- Freeness test of one candidate slot start `t` (minutes-of-day)
against the serialised conflict list: the slot end is
`(t*60 + durSec) mod daySecs` (the `.time()` of the slot end datetime),
and the slot is busy against an entry exactly when
`current_time < conf_end and slot_end_time > conf_start`. -/
def slotFree (durSec : Nat) (entries : List ConflictEntry) (t : Nat) : Bool :=
  entries.all fun c =>
    match c.start_min, c.end_min with
    | some cs, some ce =>
        !(decide (t * 60 < ce * 60) && decide ((t * 60 + durSec) % daySecs > cs * 60))
    | _, _ => true

/-- The collecting loop shared by both suggestion scans: walk the
candidate list in order, keep elements satisfying `p`, stop as soon as
three are collected or the candidates run out. -/
def takeUpTo3 (p : Nat → Bool) : List Nat → List Nat → List Nat
  | [], acc => acc
  | t :: rest, acc =>
    if acc.length < 3 then
      takeUpTo3 p rest (if p t then acc ++ [t] else acc)
    else acc

/-- Candidate slot starts in minutes-of-day: 09:00 to 17:30 in
30-minute steps (the loop runs while `current_time < 18:00`). -/
def slotCandidates : List Nat :=
  (List.range 18).map fun k => 540 + 30 * k

/-- Same-day slot suggestion of `check_schedule_conflicts`
(lines 1279-1308), returning starts in minutes-of-day. -/
def suggestTimes (durSec : Nat) (entries : List ConflictEntry) : List Nat :=
  takeUpTo3 (slotFree durSec entries) slotCandidates []

/-- The seven subsequent calendar days scanned by the date fallback. -/
def dateCandidates (d : Nat) : List Nat :=
  (List.range 7).map fun k => d + 1 + k

/-- Alternative-date fallback of `check_schedule_conflicts`
(lines 1310-1333): suggest up to three of the next seven days holding
zero tasks, plus the COUNT queries it issued (one per examined day,
the loop stopping once three days are collected). -/
def suggestDatesT (db : DB) (uid : Nat) : List Nat → List Nat → List Nat × List DBOp
  | [], acc => (acc, [])
  | t :: rest, acc =>
    if acc.length < 3 then
      let res := suggestDatesT db uid rest (if dayTaskCount db uid t == 0 then acc ++ [t] else acc)
      (res.1, DBOp.selectTaskCount uid t :: res.2)
    else (acc, [])

/-- The proposed end used by `check_schedule_conflicts`: the explicit
end when given, else derived from the duration when a start is given
(lines 1212-1224). -/
def proposedEnd (d : Nat) (start_time end_time : Option Nat) (durSec : Nat) : Option Nat :=
  match end_time, start_time with
  | some e, _ => some e
  | none, some s => some (deriveEndTod d s durSec)
  | none, none => none

/-- The result record of `check_schedule_conflicts`. -/
structure ConflictReport where
  success : Bool
  has_conflicts : Bool
  has_time_overlap : Bool
  conflict_count : Nat
  conflicts : List ConflictEntry
  suggested_times : List Nat
  suggested_dates : List Nat
deriving Repr, DecidableEq

/-- `check_schedule_conflicts` (lines 1167-1355), returning the report
together with the trace of database operations it issued.  Inputs are
the already-parsed proposal: optional start and end times-of-day in
seconds and the duration in seconds (default 7200, i.e. 2.0 hours). -/
def checkScheduleConflictsT (db : DB) (uid d : Nat)
    (start_time end_time : Option Nat) (durSec : Nat) :
    ConflictReport × List DBOp :=
  let pe : Option Nat := proposedEnd d start_time end_time durSec
  let rows := sameDayTasks db uid d
  let conflicts := rows.map (mkConflictEntry start_time pe)
  let hasOverlap := conflicts.any (·.is_time_overlap)
  let times := if hasOverlap && start_time.isSome then suggestTimes durSec conflicts else []
  let datesT :=
    if !conflicts.isEmpty && times.isEmpty then
      suggestDatesT db uid (dateCandidates d) []
    else ([], [])
  ({ success := true
     has_conflicts := !conflicts.isEmpty
     has_time_overlap := hasOverlap
     conflict_count := conflicts.length
     conflicts := conflicts
     suggested_times := times
     suggested_dates := datesT.1 },
   DBOp.selectTasksOnDate uid d :: datesT.2)

/-- `check_schedule_conflicts`, report only. -/
def checkScheduleConflicts (db : DB) (uid d : Nat)
    (start_time end_time : Option Nat) (durSec : Nat := 7200) : ConflictReport :=
  (checkScheduleConflictsT db uid d start_time end_time durSec).1

/-! ## Day re-planner (`src/pages/todays_plan/logic.py`) -/

/-- `fetch_todays_items`: the requesting user's today-set, rows
scheduled for today or carrying no scheduled date. -/
def fetchTodaysItems (db : DB) (uid today : Nat) : List TaskRow :=
  db.tasks.filter fun r =>
    r.user_id == uid && (r.scheduled_date == some today || r.scheduled_date == none)

/-- One entry of the oracle proposal handed to `update_task_times`.
The oracle is asked for `task_id`, `start_time`, `end_time`, `reason`;
`is_meeting` models the `update.get` lookup of a key the oracle output
does not carry (absent gives `none`). -/
structure UpdateEntry where
  task_id : Nat
  start_time : Nat
  end_time : Nat
  reason : String
  is_meeting : Option Bool
deriving Repr, DecidableEq

/-- The status written by `update_task_times` for one entry:
`'meeting' if update.get(..) else 'task'`. -/
def updateEntryStatus (u : UpdateEntry) : String :=
  if u.is_meeting.getD false then "meeting" else "task"

/-- The UPDATE statement issued for one proposal entry: match on
`task_id` only and set times, `scheduled_date = today` and the status. -/
def applyTaskUpdate (today : Nat) (u : UpdateEntry) (db : DB) : DB :=
  applyOp db (.updateTaskTimes u.task_id u.start_time u.end_time today (updateEntryStatus u))

/-- `update_task_times` (lines 52-77): loop over the proposal entries,
issuing one UPDATE per entry, and report success. -/
def updateTaskTimes (today : Nat) (db : DB) (updates : List UpdateEntry) : DB × Bool :=
  (updates.foldl (fun acc u => applyTaskUpdate today u acc) db, true)

/-! ## External calendar model and sync orchestration -/

/-- One event on the external (Google) calendar. -/
structure GoogleEvent where
  gid : Nat
  summary : String
  startAt : Nat
  endAt : Nat
deriving Repr, DecidableEq

/-- The external calendar service: its event list and the next opaque
id it will hand out. -/
structure ExtCal where
  events : List GoogleEvent
  nextId : Nat
deriving Repr, DecidableEq

/-- `service.events().insert(...)`: the external create primitive used
by both creation operations.  It always appends a fresh event and
returns its id; it is not keyed by any local identifier. -/
def extInsert (ext : ExtCal) (summary : String) (s e : Nat) : ExtCal × Nat :=
  ({ events := ext.events ++ [⟨ext.nextId, summary, s, e⟩], nextId := ext.nextId + 1 },
   ext.nextId)

/-- Outcome of one external sync attempt, abstracting credential lookup
and the network call: `noCreds` when `get_google_credentials` returns
`None`, `ok` when the insert succeeds, `err msg` when it raises with
message `msg`. -/
inductive SyncOutcome where
  | noCreds
  | ok
  | err (msg : String)
deriving Repr, DecidableEq

/-- Whether the first character list is an initial segment of the
second. -/
def strStarts : List Char → List Char → Bool
  | [], _ => true
  | _ :: _, [] => false
  | p :: ps, c :: cs => p == c && strStarts ps cs

/-- Whether the pattern occurs somewhere in the character list. -/
def hasSubAux (pat : List Char) : List Char → Bool
  | [] => pat.isEmpty
  | c :: cs => strStarts pat (c :: cs) || hasSubAux pat cs

/-- Substring test, modelling the Python `in` operator on strings. -/
def containsSub (s pat : String) : Bool :=
  hasSubAux pat.data s.data

/-- The error classification of `add_task_to_calendar` (line 264):
an expired or invalid grant is recognised by message substring. -/
def isExpiredGrant (msg : String) : Bool :=
  containsSub msg "invalid_grant" || containsSub msg "Token has been expired"

/-- Sync annotation when the user has not connected Google Calendar. -/
def notConnectedMsg : String :=
  "\n\nWarning - Google Calendar Not Connected: To sync this task to your Google Calendar, please go to the Calendar tab and authorize your Google account first."

/-- Sync annotation on an expired or invalid grant. -/
def expiredMsg : String :=
  "\n\nWarning - Google Calendar Authorization Expired: Please go to the Calendar tab and re-authorize your Google account to sync events."

/-- Generic sync-failure annotation of `add_task_to_calendar`. -/
def syncFailedMsg (errMsg : String) : String :=
  "\n\nWarning - Google Calendar Sync Failed: " ++ errMsg ++ ". Task saved to database only."

/-- Success annotation of `add_task_to_calendar`. -/
def taskSyncedMsg : String := "\nSynced to Google Calendar!"

/-- The sync annotation computed by `add_task_to_calendar`
(lines 215-268), classifying every outcome. -/
def addTaskSyncNote : SyncOutcome → String
  | .noCreds => notConnectedMsg
  | .ok => taskSyncedMsg
  | .err m => if isExpiredGrant m then expiredMsg else syncFailedMsg m

/-- The sync annotation computed by `schedule_meeting`
(lines 946-1018): empty when no credentials are stored, a single
generic message on any failure. -/
def meetingSyncNote : SyncOutcome → String
  | .noCreds => ""
  | .ok => "\nSynced to Google Calendar!"
  | .err m => "\nWarning - Google Calendar sync failed: " ++ m

/-- One step of an operation's execution trace: a local database write
or a call out to the external calendar service. -/
inductive Step where
  | localWrite (op : DBOp)
  | externalCall
deriving Repr, DecidableEq

/-- Whether a trace step is the external call. -/
def Step.isExternal : Step → Bool
  | .externalCall => true
  | _ => false

/-- Whether a trace step inserts a `tasks` row. -/
def Step.isInsertTask : Step → Bool
  | .localWrite (.insertTask _) => true
  | _ => false

/-- Whether a trace step inserts a `calendar_events` row. -/
def Step.isInsertEvent : Step → Bool
  | .localWrite (.insertEvent _) => true
  | _ => false

/-- Result of a creation operation, covering the response fields of
`add_task_to_calendar` and `schedule_meeting`, the final local and
external states, and the execution trace. -/
structure OpResult where
  db : DB
  ext : ExtCal
  success : Bool
  task_id : Option Nat
  event_id : Option Nat
  google_event_id : Option Nat
  google_synced : Bool
  syncNote : String
  message : String
  steps : List Step
deriving Repr, DecidableEq

/-- Already-parsed arguments of `add_task_to_calendar`. -/
structure AddTaskArgs where
  title : String
  description : String
  due_date : Option Nat
  scheduled_date : Option Nat
  start_time : Option Nat
  end_time : Option Nat
  priority : String
  category : String
  meeting_link : String
deriving Repr, DecidableEq

/-- The `tasks` row inserted by `add_task_to_calendar`. -/
def addTaskRow (uid tid dueD schedD : Nat) (a : AddTaskArgs) : TaskRow :=
  { task_id := tid, user_id := uid, title := a.title, status := "task"
    priority := a.priority, category := a.category, description := a.description
    due_date := some dueD, scheduled_date := some schedD
    start_time := a.start_time, end_time := a.end_time }

/-- The `calendar_events` row inserted by `add_task_to_calendar`. -/
def addEventRow (uid tid eid dueD schedD : Nat) (a : AddTaskArgs) : EventRow :=
  { event_id := eid, task_id := some tid, user_id := uid
    start_time := a.start_time, end_time := a.end_time
    due_date := some dueD, scheduled_date := some schedD
    event_desc := a.description, event_type := "task"
    google_event_ref := none, is_calendar_synced := false }

/-- The meeting-code extraction of `add_task_to_calendar` (line 209):
the last path segment when the link holds a slash, else the link. -/
def linkCode (link : String) : String :=
  if containsSub link "/" then (link.splitOn "/").getLastD link else link

/-- Base success message of `add_task_to_calendar` (date formatting of
the source message elided). -/
def addTaskBaseMsg (a : AddTaskArgs) : String :=
  "Task " ++ a.title ++ " added successfully!"

/-- Defaulting of `add_task_to_calendar`: a missing due date falls
back to tomorrow. -/
def addTaskDueD (today : Nat) (a : AddTaskArgs) : Nat :=
  a.due_date.getD (today + 1)

/-- Defaulting of `add_task_to_calendar`: a missing scheduled date
falls back to the due date. -/
def addTaskSchedD (today : Nat) (a : AddTaskArgs) : Nat :=
  a.scheduled_date.getD (addTaskDueD today a)

/-- `add_task_to_calendar` (lines 58-285).  The two local inserts (and
the optional meeting-link insert) are committed, then the external sync
is attempted; its outcome never changes `success` and is folded into
the message annotation. -/
def addTaskToCalendar (today uid : Nat) (db : DB) (ext : ExtCal)
    (outcome : SyncOutcome) (a : AddTaskArgs) : OpResult :=
  let dueD := addTaskDueD today a
  let schedD := addTaskSchedD today a
  let tid := db.nextTaskId
  let db1 := applyOp db (.insertTask (addTaskRow uid tid dueD schedD a))
  let eid := db1.nextEventId
  let db2 := applyOp db1 (.insertEvent (addEventRow uid tid eid dueD schedD a))
  let db3 :=
    if a.meeting_link ≠ "" then
      applyOp db2 (.insertLink ⟨eid, "custom", linkCode a.meeting_link, a.meeting_link⟩)
    else db2
  let linkSteps : List Step :=
    if a.meeting_link ≠ "" then
      [.localWrite (.insertLink ⟨eid, "custom", linkCode a.meeting_link, a.meeting_link⟩)]
    else []
  let event_start := schedD * daySecs + a.start_time.getD 0
  let event_end := match a.end_time with
    | some e => schedD * daySecs + e
    | none => event_start + 3600
  let localSteps : List Step :=
    .localWrite (.insertTask (addTaskRow uid tid dueD schedD a)) ::
      .localWrite (.insertEvent (addEventRow uid tid eid dueD schedD a)) :: linkSteps
  match outcome with
  | .noCreds =>
      { db := db3, ext := ext, success := true, task_id := some tid, event_id := some eid
        google_event_id := none, google_synced := false
        syncNote := addTaskSyncNote .noCreds
        message := addTaskBaseMsg a ++ addTaskSyncNote .noCreds
        steps := localSteps }
  | .ok =>
      let pushed := extInsert ext ("TASK " ++ a.title) event_start event_end
      let db4 := applyOp db3 (.updateEventRef eid pushed.2 false)
      { db := db4, ext := pushed.1, success := true, task_id := some tid, event_id := some eid
        google_event_id := some pushed.2, google_synced := true
        syncNote := addTaskSyncNote .ok
        message := addTaskBaseMsg a ++ addTaskSyncNote .ok
        steps := localSteps ++ [.externalCall, .localWrite (.updateEventRef eid pushed.2 false)] }
  | .err m =>
      { db := db3, ext := ext, success := true, task_id := some tid, event_id := some eid
        google_event_id := none, google_synced := false
        syncNote := addTaskSyncNote (.err m)
        message := addTaskBaseMsg a ++ addTaskSyncNote (.err m)
        steps := localSteps ++ [.externalCall] }

/-- Already-parsed arguments of `schedule_meeting`.  `scheduled_date`
and `start_time` are required by the source signature; collaborator
lists are handled by a separate sub-operation downstream of every
property considered here. -/
structure MeetingArgs where
  title : String
  scheduled_date : Nat
  start_time : Nat
  end_time : Option Nat
  due_date : Option Nat
  priority : String
  description : String
  meeting_code : Option String
  auto_generate_link : Bool
  durSec : Nat
deriving Repr, DecidableEq

/-- The end-instant construction of `schedule_meeting` (lines 896-902):
combine the scheduled date with the end time-of-day and move to the
next day when the end is numerically below the start. -/
def meetingEventEnd (d s e : Nat) : Nat :=
  if e < s then d * daySecs + e + daySecs else d * daySecs + e

/-- The end-instant construction of `get_calendar_events`
(lines 1136-1142): next-day rollover exactly when a start is present
and the end is numerically below it. -/
def gcalEndInstant (d : Nat) (st : Option Nat) (e : Nat) : Nat :=
  match st with
  | some s => if e < s then (d + 1) * daySecs + e else d * daySecs + e
  | none => d * daySecs + e

/-- The `tasks` row inserted by `schedule_meeting`. -/
def meetingTaskRow (uid tid dueD : Nat) (e : Nat) (m : MeetingArgs) : TaskRow :=
  { task_id := tid, user_id := uid, title := m.title, status := "meeting"
    priority := m.priority, category := "general", description := m.description
    due_date := some dueD, scheduled_date := some m.scheduled_date
    start_time := some m.start_time, end_time := some e }

/-- The `calendar_events` row inserted by `schedule_meeting`. -/
def meetingEventRow (uid tid eid dueD : Nat) (e : Nat) (m : MeetingArgs) : EventRow :=
  { event_id := eid, task_id := some tid, user_id := uid
    start_time := some m.start_time, end_time := some e
    due_date := some dueD, scheduled_date := some m.scheduled_date
    event_desc := "Title: " ++ m.title ++ "\n\n" ++ m.description, event_type := "meeting"
    google_event_ref := none, is_calendar_synced := false }

/-- Defaulting of `schedule_meeting`: a missing due date falls back to
the scheduled date. -/
def meetingDueD (m : MeetingArgs) : Nat :=
  m.due_date.getD m.scheduled_date

/-- The end time-of-day used by `schedule_meeting`: the explicit end
when given, else derived from the duration. -/
def meetingEndTod (m : MeetingArgs) : Nat :=
  m.end_time.getD (deriveEndTod m.scheduled_date m.start_time m.durSec)

/-- `schedule_meeting` (lines 800-1051).  A missing end time is derived
from the duration; an end numerically below the start is accepted and
rolled over to the next day for the external event body.  Local inserts
precede the sync attempt; a sync failure is annotated, never fatal.
On a successful sync with link auto-generation the Google Meet link row
is stored. -/
def scheduleMeeting (uid : Nat) (db : DB) (ext : ExtCal)
    (outcome : SyncOutcome) (m : MeetingArgs) : OpResult :=
  let dueD := meetingDueD m
  let e := meetingEndTod m
  let event_start := m.scheduled_date * daySecs + m.start_time
  let event_end := meetingEventEnd m.scheduled_date m.start_time e
  let tid := db.nextTaskId
  let db1 := applyOp db (.insertTask (meetingTaskRow uid tid dueD e m))
  let eid := db1.nextEventId
  let db2 := applyOp db1 (.insertEvent (meetingEventRow uid tid eid dueD e m))
  let localSteps : List Step :=
    [.localWrite (.insertTask (meetingTaskRow uid tid dueD e m)),
     .localWrite (.insertEvent (meetingEventRow uid tid eid dueD e m))]
  let baseMsg := "Meeting " ++ m.title ++ " scheduled"
  match outcome with
  | .noCreds =>
      { db := db2, ext := ext, success := true, task_id := some tid, event_id := some eid
        google_event_id := none, google_synced := false
        syncNote := meetingSyncNote .noCreds
        message := baseMsg ++ meetingSyncNote .noCreds
        steps := localSteps }
  | .ok =>
      let pushed := extInsert ext ("MEETING " ++ m.title) event_start event_end
      let db3 := applyOp db2 (.updateEventRef eid pushed.2 true)
      let db4 :=
        if m.auto_generate_link && m.meeting_code.isNone then
          applyOp db3 (.insertLink ⟨eid, "google_meet", "generated-code", "generated-url"⟩)
        else db3
      { db := db4, ext := pushed.1, success := true, task_id := some tid, event_id := some eid
        google_event_id := some pushed.2, google_synced := true
        syncNote := meetingSyncNote .ok
        message := baseMsg ++ meetingSyncNote .ok
        steps := localSteps ++ [.externalCall, .localWrite (.updateEventRef eid pushed.2 true)] }
  | .err msg =>
      { db := db2, ext := ext, success := true, task_id := some tid, event_id := some eid
        google_event_id := none, google_synced := false
        syncNote := meetingSyncNote (.err msg)
        message := baseMsg ++ meetingSyncNote (.err msg)
        steps := localSteps ++ [.externalCall] }

/-- The sync step pattern shared by both creation operations: push one
external event for the local event `eid` and write the returned opaque
id back onto that event row. -/
def syncPushForEvent (db : DB) (ext : ExtCal) (eid : Nat)
    (summary : String) (s e : Nat) : DB × ExtCal :=
  let pushed := extInsert ext summary s e
  (applyOp db (.updateEventRef eid pushed.2 false), pushed.1)

/-! ## Supporting lemmas -/

/-- The collecting loop is filter-then-take-three. -/
theorem takeUpTo3_eq (p : Nat → Bool) :
    ∀ (l acc : List Nat), acc.length ≤ 3 →
      takeUpTo3 p l acc = acc ++ (l.filter p).take (3 - acc.length) := by
  intro l
  induction l with
  | nil => intro acc _; simp [takeUpTo3]
  | cons t rest ih =>
    intro acc hacc
    by_cases hlen : acc.length < 3
    · rw [takeUpTo3]
      simp only [hlen, if_pos]
      by_cases hp : p t
      · rw [if_pos hp, ih (acc ++ [t]) (by simp; omega)]
        have h3 : 3 - acc.length = (3 - (acc ++ [t]).length) + 1 := by
          simp; omega
        simp [List.filter_cons, hp, h3, List.take_succ_cons]
      · rw [if_neg hp, ih acc hacc]
        simp [List.filter_cons, hp]
    · have h3 : acc.length = 3 := by omega
      rw [takeUpTo3]
      simp [hlen, h3]

/-- The date fallback returns the collecting loop's result. -/
theorem suggestDatesT_fst (db : DB) (uid : Nat) :
    ∀ (l acc : List Nat),
      (suggestDatesT db uid l acc).1 =
        takeUpTo3 (fun t => dayTaskCount db uid t == 0) l acc := by
  intro l
  induction l with
  | nil => intro acc; rfl
  | cons t rest ih =>
    intro acc
    rw [suggestDatesT, takeUpTo3]
    by_cases hlen : acc.length < 3
    · simp only [hlen, if_pos]
      exact ih _
    · simp [hlen]

/-- Every operation traced by the date fallback is a SELECT. -/
theorem suggestDatesT_ops_select (db : DB) (uid : Nat) :
    ∀ (l acc : List Nat),
      ((suggestDatesT db uid l acc).2).all DBOp.isSelect = true := by
  intro l
  induction l with
  | nil => intro acc; rfl
  | cons t rest ih =>
    intro acc
    rw [suggestDatesT]
    by_cases hlen : acc.length < 3
    · simp only [hlen, if_pos, List.all_cons, Bool.and_eq_true]
      exact ⟨rfl, ih _⟩
    · simp [hlen]

/-- Running a trace of SELECTs leaves the store unchanged. -/
theorem applyOps_of_selects (ops : List DBOp) :
    ∀ (db : DB), ops.all DBOp.isSelect = true → applyOps db ops = db := by
  induction ops with
  | nil => intro db _; rfl
  | cons op rest ih =>
    intro db h
    simp only [List.all_cons, Bool.and_eq_true] at h
    have hop : applyOp db op = db := by
      cases op <;> first
        | rfl
        | exact absurd h.1 (by simp [DBOp.isSelect])
    simpa [applyOps, hop] using ih db h.2

/-- The candidate slot starts are strictly ascending. -/
theorem slotCandidates_sorted : List.Pairwise (· < ·) slotCandidates := by
  decide

/-- Every candidate slot start lies on the 30-minute business grid. -/
theorem slotCandidates_grid :
    ∀ t ∈ slotCandidates, 540 ≤ t ∧ t < 1080 ∧ t % 30 = 0 := by
  decide

/-- The scanned fallback days are strictly ascending. -/
theorem dateCandidates_sorted (d : Nat) :
    List.Pairwise (· < ·) (dateCandidates d) := by
  simp only [dateCandidates]
  exact List.Pairwise.map _ (fun a b (h : a < b) => Nat.add_lt_add_left h (d + 1))
    (List.pairwise_lt_range 7)

/-- Every scanned fallback day lies in the seven days after `d`. -/
theorem dateCandidates_mem (d : Nat) :
    ∀ t ∈ dateCandidates d, d + 1 ≤ t ∧ t ≤ d + 7 := by
  intro t ht
  simp only [dateCandidates, List.mem_map, List.mem_range] at ht
  obtain ⟨k, hk, rfl⟩ := ht
  omega

/-! ## Concrete stores used by witnesses and counterexamples -/

/-- A store holding one timed task of user 1 on day 100, 10:00-11:00. -/
def dbOneTimed : DB :=
  { tasks := [{ task_id := 5, user_id := 1, title := "standup", status := "task"
                priority := "medium", category := "general", description := ""
                due_date := none, scheduled_date := some 100
                start_time := some 36000, end_time := some 39600 }]
    events := [], links := [], nextTaskId := 6, nextEventId := 1 }

/-- A store holding one untimed item of user 1 on day 100 and nothing
on the following week. -/
def dbOneUntimed : DB :=
  { tasks := [{ task_id := 7, user_id := 1, title := "errand", status := "todo"
                priority := "medium", category := "general", description := ""
                due_date := none, scheduled_date := some 100
                start_time := none, end_time := none }]
    events := [], links := [], nextTaskId := 8, nextEventId := 1 }

/-! ## Claims -/

/-- C2: with a proposed start and end on a date, each same-day item with
both times is flagged `is_time_overlap` exactly when
`item.start < proposed_end` and `item.end > proposed_start` (so touching
windows are never flagged and untimed items are never flagged, though
every same-day item is listed); `has_time_overlap` holds exactly when
some listed item is flagged, and `has_conflicts` exactly when at least
one same-day item exists. -/
theorem conflict_flag_halfopen_iff (db : DB) (uid d ps pe durSec : Nat) :
    (∀ c ∈ (checkScheduleConflicts db uid d (some ps) (some pe) durSec).conflicts,
        ∃ r ∈ sameDayTasks db uid d,
          c = mkConflictEntry (some ps) (some pe) r ∧
          (c.is_time_overlap = true ↔
            ∃ s e, r.start_time = some s ∧ r.end_time = some e ∧ s < pe ∧ e > ps)) ∧
    (∀ r ∈ sameDayTasks db uid d,
        mkConflictEntry (some ps) (some pe) r ∈
          (checkScheduleConflicts db uid d (some ps) (some pe) durSec).conflicts) ∧
    ((checkScheduleConflicts db uid d (some ps) (some pe) durSec).has_time_overlap = true ↔
      ∃ c ∈ (checkScheduleConflicts db uid d (some ps) (some pe) durSec).conflicts,
        c.is_time_overlap = true) ∧
    ((checkScheduleConflicts db uid d (some ps) (some pe) durSec).has_conflicts = true ↔
      sameDayTasks db uid d ≠ []) := by
  have hc : (checkScheduleConflicts db uid d (some ps) (some pe) durSec).conflicts =
      (sameDayTasks db uid d).map (mkConflictEntry (some ps) (some pe)) := rfl
  refine ⟨?_, ?_, ?_, ?_⟩
  · intro c hcmem
    rw [hc] at hcmem
    obtain ⟨r, hr, rfl⟩ := List.mem_map.mp hcmem
    refine ⟨r, hr, rfl, ?_⟩
    have hflag : (mkConflictEntry (some ps) (some pe) r).is_time_overlap =
        rowIsOverlap (some ps) (some pe) r := rfl
    rw [hflag]
    cases hs : r.start_time with
    | none =>
      simp only [rowIsOverlap, hs]
      constructor
      · intro h; cases h
      · rintro ⟨s, e, hs', he', _, _⟩; cases hs'
    | some s =>
      cases he : r.end_time with
      | none =>
        simp only [rowIsOverlap, hs, he]
        constructor
        · intro h; cases h
        · rintro ⟨s', e', hs', he', _, _⟩; cases he'
      | some e =>
        simp only [rowIsOverlap, hs, he, Bool.and_eq_true, decide_eq_true_eq]
        constructor
        · rintro ⟨h1, h2⟩; exact ⟨s, e, rfl, rfl, h1, h2⟩
        · rintro ⟨s', e', hs', he', h1, h2⟩
          cases hs'; cases he'; exact ⟨h1, h2⟩
  · intro r hr
    rw [hc]
    exact List.mem_map_of_mem _ hr
  · have ho : (checkScheduleConflicts db uid d (some ps) (some pe) durSec).has_time_overlap =
        ((checkScheduleConflicts db uid d (some ps) (some pe) durSec).conflicts.any
          (·.is_time_overlap)) := rfl
    rw [ho, List.any_eq_true]
  · have hh : (checkScheduleConflicts db uid d (some ps) (some pe) durSec).has_conflicts =
        !((sameDayTasks db uid d).map (mkConflictEntry (some ps) (some pe))).isEmpty := rfl
    rw [hh]
    simp [List.isEmpty_iff]

/-- C2 witness: at the concrete store `dbOneTimed` and proposal
10:30-11:30 on day 100, the theorem yields a flagged report. -/
theorem conflict_flag_halfopen_iff_witness :
    (checkScheduleConflicts dbOneTimed 1 100 (some 37800) (some 41400) 7200).has_conflicts
      = true :=
  (conflict_flag_halfopen_iff dbOneTimed 1 100 37800 41400 7200).2.2.2.mpr (by decide)

/-- C7: deriving the end time-of-day by adding a duration in `(0, 24h)`
to the start instant and recombining the scheduled date (plus one day
on rollover, i.e. when the derived time-of-day is numerically below the
start) with that time-of-day yields an instant exactly the duration
after the start instant; the same derivation is the one feeding
`check_schedule_conflicts` (its conflict entries are built against the
derived proposed end) and `schedule_meeting` (its inserted task row
carries the derived end when no explicit end is given). -/
theorem derive_end_roundtrip (d s durSec : Nat) (db : DB) (uid : Nat)
    (hs : s < daySecs) (h0 : 0 < durSec) (h1 : durSec < daySecs) :
    ((d + (if (deriveEnd d s durSec).2 then 1 else 0)) * daySecs + (deriveEnd d s durSec).1
      = d * daySecs + s + durSec) ∧
    ((checkScheduleConflicts db uid d (some s) none durSec).conflicts
      = (sameDayTasks db uid d).map (mkConflictEntry (some s) (some (deriveEnd d s durSec).1))) ∧
    (∀ (ext : ExtCal) (o : SyncOutcome) (m : MeetingArgs),
      m.scheduled_date = d → m.start_time = s → m.durSec = durSec → m.end_time = none →
      Step.localWrite (.insertTask
          (meetingTaskRow uid db.nextTaskId (m.due_date.getD d) (deriveEnd d s durSec).1 m))
        ∈ (scheduleMeeting uid db ext o m).steps) := by
  refine ⟨?_, rfl, ?_⟩
  · simp only [deriveEnd, deriveEndTod, daySecs] at *
    split_ifs with hc
    · simp only [decide_eq_true_eq] at hc
      omega
    · simp only [decide_eq_true_eq, not_lt] at hc
      omega
  · rintro ext o m rfl rfl rfl hend
    have he : m.end_time.getD (deriveEndTod m.scheduled_date m.start_time m.durSec)
        = (deriveEnd m.scheduled_date m.start_time m.durSec).1 := by
      rw [hend]; rfl
    cases o <;> simp [scheduleMeeting, meetingDueD, meetingEndTod, he]

/-- C7 witness: a 23:00 start and a 2-hour duration on day 100 roll
over to 01:00 on day 101, exactly two hours after the start instant. -/
theorem derive_end_roundtrip_witness :
    (100 + (if (deriveEnd 100 82800 7200).2 then 1 else 0)) * daySecs
        + (deriveEnd 100 82800 7200).1
      = 100 * daySecs + 82800 + 7200 :=
  (derive_end_roundtrip 100 82800 7200 dbOneTimed 1 (by decide) (by decide) (by decide)).1

/-- C10: `check_schedule_conflicts` is read-only: every database
operation in its trace is a SELECT, and replaying the trace leaves the
store unchanged, whatever the inputs. -/
theorem check_conflicts_readonly (db : DB) (uid d : Nat)
    (st et : Option Nat) (durSec : Nat) :
    ((checkScheduleConflictsT db uid d st et durSec).2).all DBOp.isSelect = true ∧
    applyOps db (checkScheduleConflictsT db uid d st et durSec).2 = db := by
  have hall : ((checkScheduleConflictsT db uid d st et durSec).2).all DBOp.isSelect = true := by
    simp only [checkScheduleConflictsT, List.all_cons, Bool.and_eq_true]
    refine ⟨rfl, ?_⟩
    split <;> split <;>
      first
        | exact suggestDatesT_ops_select db uid _ _
        | rfl
  exact ⟨hall, applyOps_of_selects _ db hall⟩

/-- C6 counterexample: on a store holding one untimed item today and an
empty following week, a proposal without times gives
`has_time_overlap = false`, yet the date fallback still runs and
returns three dates — refuting the claim that both suggestion lists are
empty whenever `has_time_overlap` is false. -/
theorem datefallback_runs_without_overlap_cex :
    (checkScheduleConflicts dbOneUntimed 1 100 none none 7200).has_time_overlap = false ∧
    (checkScheduleConflicts dbOneUntimed 1 100 none none 7200).suggested_dates
      = [101, 102, 103] := by
  exact ⟨rfl, by decide⟩

/-- C6 amended: time suggestions appear only when `has_time_overlap` is
true, but the date fallback is entered exactly whenever the same-day
conflict list is nonempty and no time was suggested — including when
`has_time_overlap` is false — and then returns precisely the first
three of the seven subsequent days holding zero scheduled tasks; so
the dates suggested are only such days, at most three, in ascending
order. -/
theorem suggestion_trigger_amended (db : DB) (uid d : Nat) (st et : Option Nat)
    (durSec : Nat) (rep : ConflictReport)
    (hrep : rep = checkScheduleConflicts db uid d st et durSec) :
    (rep.has_time_overlap = false → rep.suggested_times = []) ∧
    (rep.conflicts = [] → rep.suggested_dates = []) ∧
    (rep.suggested_times ≠ [] → rep.suggested_dates = []) ∧
    (rep.conflicts ≠ [] → rep.suggested_times = [] →
      rep.suggested_dates =
        ((dateCandidates d).filter (fun t => dayTaskCount db uid t == 0)).take 3) ∧
    (∀ day ∈ rep.suggested_dates, d + 1 ≤ day ∧ day ≤ d + 7 ∧ dayTaskCount db uid day = 0) ∧
    rep.suggested_dates.length ≤ 3 ∧
    List.Pairwise (· < ·) rep.suggested_dates := by
  subst hrep
  have hover : (checkScheduleConflicts db uid d st et durSec).has_time_overlap =
      ((sameDayTasks db uid d).map (mkConflictEntry st (proposedEnd d st et durSec))).any
        (·.is_time_overlap) := rfl
  have hconf : (checkScheduleConflicts db uid d st et durSec).conflicts =
      (sameDayTasks db uid d).map (mkConflictEntry st (proposedEnd d st et durSec)) := rfl
  have htimes : (checkScheduleConflicts db uid d st et durSec).suggested_times =
      if ((checkScheduleConflicts db uid d st et durSec).has_time_overlap && st.isSome)
      then suggestTimes durSec ((checkScheduleConflicts db uid d st et durSec).conflicts)
      else [] := rfl
  have hdates : (checkScheduleConflicts db uid d st et durSec).suggested_dates =
      (if (!((checkScheduleConflicts db uid d st et durSec).conflicts).isEmpty &&
            ((checkScheduleConflicts db uid d st et durSec).suggested_times).isEmpty)
       then suggestDatesT db uid (dateCandidates d) [] else ([], [])).1 := rfl
  have hdatesCases :
      (checkScheduleConflicts db uid d st et durSec).suggested_dates = [] ∨
      (checkScheduleConflicts db uid d st et durSec).suggested_dates =
        (((dateCandidates d).filter
            (fun t => dayTaskCount db uid t == 0)).take 3) := by
    rw [hdates]
    by_cases hcond : (!((checkScheduleConflicts db uid d st et durSec).conflicts).isEmpty &&
        ((checkScheduleConflicts db uid d st et durSec).suggested_times).isEmpty) = true
    · right
      rw [if_pos hcond, suggestDatesT_fst, takeUpTo3_eq _ _ [] (by simp)]
      rfl
    · left
      rw [if_neg hcond]
  refine ⟨?_, ?_, ?_, ?_, ?_, ?_, ?_⟩
  · intro h
    rw [htimes, h]
    rfl
  · intro h
    rw [hdates, h]
    rfl
  · intro h
    rw [hdates]
    have : ((checkScheduleConflicts db uid d st et durSec).suggested_times).isEmpty = false := by
      cases hx : (checkScheduleConflicts db uid d st et durSec).suggested_times with
      | nil => exact absurd hx h
      | cons a l => rfl
    rw [this]
    simp
  · intro hc ht
    have hcne : ((checkScheduleConflicts db uid d st et durSec).conflicts).isEmpty = false := by
      cases hx : (checkScheduleConflicts db uid d st et durSec).conflicts with
      | nil => exact absurd hx hc
      | cons a l => rfl
    have hte : ((checkScheduleConflicts db uid d st et durSec).suggested_times).isEmpty
        = true := by
      rw [ht]; rfl
    rw [hdates, hcne, hte]
    show (suggestDatesT db uid (dateCandidates d) []).1 = _
    rw [suggestDatesT_fst, takeUpTo3_eq _ _ [] (by simp)]
    rfl
  · intro day hday
    rcases hdatesCases with hnil | htake
    · rw [hnil] at hday; cases hday
    · rw [htake] at hday
      have hfil := List.take_subset 3 _ hday
      have hmem := List.mem_filter.mp hfil
      have hbounds := dateCandidates_mem d day hmem.1
      refine ⟨hbounds.1, hbounds.2, ?_⟩
      simpa using hmem.2
  · rcases hdatesCases with hnil | htake
    · rw [hnil]; simp
    · rw [htake]
      exact le_trans (List.length_take_le _ _) (le_refl 3)
  · rcases hdatesCases with hnil | htake
    · rw [hnil]; exact List.Pairwise.nil
    · rw [htake]
      exact List.Pairwise.sublist (List.take_sublist _ _)
        (List.Pairwise.filter _ (dateCandidates_sorted d))

/-- C6 witness: the amended theorem applied at the concrete untimed
store — the fallback is entered (conflicts nonempty, no time
suggested) and the suggested dates are exactly the first three empty
subsequent days. -/
theorem suggestion_trigger_amended_witness :
    (checkScheduleConflicts dbOneUntimed 1 100 none none 7200).suggested_dates
      = ((dateCandidates 100).filter
          (fun t => dayTaskCount dbOneUntimed 1 t == 0)).take 3 :=
  (suggestion_trigger_amended dbOneUntimed 1 100 none none 7200 _ rfl).2.2.2.1
    (by decide) rfl

/-- A store holding one task of user 1 on day 100 whose window carries
seconds: 10:30:00 to 11:00:30. -/
def dbSecondsItem : DB :=
  { tasks := [{ task_id := 6, user_id := 1, title := "long call", status := "task"
                priority := "medium", category := "general", description := ""
                due_date := none, scheduled_date := some 100
                start_time := some 37800, end_time := some 39630 }]
    events := [], links := [], nextTaskId := 7, nextEventId := 1 }

/-- C5 counterexample, refuting the no-overlap guarantee twice over.
With one listed item 10:00-11:00 and a 16-hour duration, the scan
suggests 10:00 itself: the slot-end time-of-day wraps past midnight,
so the busy test misses the item although `[10:00, 10:00 + 16h)`
half-open-overlaps its window.  And with an item 10:30:00-11:00:30 at
the default 2-hour duration, 11:00 is suggested: the conflict list is
serialised at minute precision, truncating the item's end to 11:00, so
the busy test misses the 30-second overhang although
`[11:00, 13:00)` half-open-overlaps the item's true window. -/
theorem slot_overlap_guarantee_cex :
    600 ∈ (checkScheduleConflicts dbOneTimed 1 100 (some 36000) (some 39600)
            57600).suggested_times ∧
    (∃ r ∈ sameDayTasks dbOneTimed 1 100,
        r.start_time = some 36000 ∧ r.end_time = some 39600) ∧
    600 * 60 < 39600 ∧ 600 * 60 + 57600 > 36000 ∧
    660 ∈ (checkScheduleConflicts dbSecondsItem 1 100 (some 36000) (some 39600)
            7200).suggested_times ∧
    (∃ r ∈ sameDayTasks dbSecondsItem 1 100,
        r.start_time = some 37800 ∧ r.end_time = some 39630) ∧
    660 * 60 < 39630 ∧ 660 * 60 + 7200 > 37800 := by
  refine ⟨by decide, ?_, by decide, by decide, by decide, ?_, by decide, by decide⟩
  · exact ⟨dbOneTimed.tasks.head (by decide), by decide, by decide, by decide⟩
  · exact ⟨dbSecondsItem.tasks.head (by decide), by decide, by decide, by decide⟩

/-- C5 amended: unconditionally, every suggested start lies on the
fixed 09:00-18:00 half-hour grid, at most three are returned and they
are strictly ascending; the no-overlap guarantee holds additionally
whenever the duration is at most six hours (so no candidate window
wraps past midnight) and every same-day item's times are whole minutes
(so the minute-serialised conflict list is lossless) — the two
restrictions the counterexample's two scenarios force. -/
theorem slot_suggestions_amended (db : DB) (uid d : Nat) (st et : Option Nat)
    (durSec : Nat) :
    (∀ t ∈ (checkScheduleConflicts db uid d st et durSec).suggested_times,
        540 ≤ t ∧ t < 1080 ∧ t % 30 = 0) ∧
    (checkScheduleConflicts db uid d st et durSec).suggested_times.length ≤ 3 ∧
    List.Pairwise (· < ·)
      (checkScheduleConflicts db uid d st et durSec).suggested_times ∧
    (durSec ≤ 21600 →
      (∀ r ∈ sameDayTasks db uid d,
          (∀ s, r.start_time = some s → s % 60 = 0) ∧
          (∀ e, r.end_time = some e → e % 60 = 0)) →
      ∀ t ∈ (checkScheduleConflicts db uid d st et durSec).suggested_times,
        ∀ r ∈ sameDayTasks db uid d, ∀ s e,
          r.start_time = some s → r.end_time = some e →
          ¬(t * 60 < e ∧ t * 60 + durSec > s)) := by
  have htif : (checkScheduleConflicts db uid d st et durSec).suggested_times =
      if ((checkScheduleConflicts db uid d st et durSec).has_time_overlap && st.isSome)
      then suggestTimes durSec ((checkScheduleConflicts db uid d st et durSec).conflicts)
      else [] := rfl
  have hsplit : (checkScheduleConflicts db uid d st et durSec).suggested_times = [] ∨
      (checkScheduleConflicts db uid d st et durSec).suggested_times =
        (slotCandidates.filter (slotFree durSec
          ((sameDayTasks db uid d).map
            (mkConflictEntry st (proposedEnd d st et durSec))))).take 3 := by
    rw [htif]
    by_cases hcond : ((checkScheduleConflicts db uid d st et durSec).has_time_overlap &&
        st.isSome) = true
    · right
      rw [if_pos hcond]
      show takeUpTo3 _ slotCandidates [] = _
      rw [takeUpTo3_eq _ _ [] (by simp)]
      rfl
    · left
      rw [if_neg hcond]
  have hgridOf : ∀ t ∈ (checkScheduleConflicts db uid d st et durSec).suggested_times,
      540 ≤ t ∧ t < 1080 ∧ t % 30 = 0 := by
    intro t hmem
    rcases hsplit with hnil | htake
    · rw [hnil] at hmem; cases hmem
    · rw [htake] at hmem
      exact slotCandidates_grid t (List.mem_filter.mp (List.take_subset 3 _ hmem)).1
  refine ⟨hgridOf, ?_, ?_, ?_⟩
  · rcases hsplit with hnil | htake
    · rw [hnil]; simp
    · rw [htake]
      exact le_trans (List.length_take_le _ _) (le_refl 3)
  · rcases hsplit with hnil | htake
    · rw [hnil]; exact List.Pairwise.nil
    · rw [htake]
      exact List.Pairwise.sublist (List.take_sublist _ _)
        (List.Pairwise.filter _ slotCandidates_sorted)
  · intro hdur halign t hmem r hr s e hse hee
    have hgrid := hgridOf t hmem
    rcases hsplit with hnil | htake
    · rw [hnil] at hmem; cases hmem
    · rw [htake] at hmem
      have hpair := List.mem_filter.mp (List.take_subset 3 _ hmem)
      have hentry : mkConflictEntry st (proposedEnd d st et durSec) r ∈
          (sameDayTasks db uid d).map (mkConflictEntry st (proposedEnd d st et durSec)) :=
        List.mem_map_of_mem _ hr
      have hfree := hpair.2
      rw [slotFree, List.all_eq_true] at hfree
      have hc := hfree _ hentry
      have hsm : (mkConflictEntry st (proposedEnd d st et durSec) r).start_min
          = some (s / 60) := by
        simp [mkConflictEntry, hse]
      have hem : (mkConflictEntry st (proposedEnd d st et durSec) r).end_min
          = some (e / 60) := by
        simp [mkConflictEntry, hee]
      rw [hsm, hem] at hc
      have hs60 : s / 60 * 60 = s :=
        Nat.div_mul_cancel (Nat.dvd_of_mod_eq_zero ((halign r hr).1 s hse))
      have he60 : e / 60 * 60 = e :=
        Nat.div_mul_cancel (Nat.dvd_of_mod_eq_zero ((halign r hr).2 e hee))
      have hmod : (t * 60 + durSec) % daySecs = t * 60 + durSec := by
        have : t * 60 + durSec < 86400 := by
          have := hgrid.2.1
          omega
        exact Nat.mod_eq_of_lt this
      simp only [hs60, he60, hmod, Bool.not_eq_true', Bool.and_eq_false_iff,
        decide_eq_false_iff_not, not_lt] at hc
      rintro ⟨h1, h2⟩
      rcases hc with hc | hc
      · omega
      · omega

/-- C5 witness: at the concrete store with one whole-minute 10:00-11:00
item and a two-hour proposal, the amended theorem's conditional
no-overlap clause applies to the suggested start 11:00, whose window
indeed clears the item. -/
theorem slot_suggestions_amended_witness :
    ¬(660 * 60 < 39600 ∧ 660 * 60 + 7200 > 36000) :=
  (slot_suggestions_amended dbOneTimed 1 100 (some 36000) (some 39600) 7200).2.2.2
    (by decide) (by decide) 660 (by decide)
    (dbOneTimed.tasks.head (by decide)) (by decide) 36000 39600 (by decide) (by decide)

/-- A store holding one overnight meeting of user 1 on day 100,
23:00 across midnight to 01:00. -/
def dbOvernight : DB :=
  { tasks := [{ task_id := 9, user_id := 1, title := "redeye", status := "meeting"
                priority := "high", category := "general", description := ""
                due_date := none, scheduled_date := some 100
                start_time := some 82800, end_time := some 3600 }]
    events := [], links := [], nextTaskId := 10, nextEventId := 1 }

/-- C4 counterexample: the overnight item 23:00-01:00 on day 100 truly
occupies an interval reaching into day 101 (as the rollover rule that
`get_calendar_events` applies prescribes), and a 23:30-23:45 proposal
on day 100 lies inside it; yet the conflict-overlap comparison on bare
times-of-day leaves `has_time_overlap` false — refuting the claim that
the rollover rule is applied in the conflict-overlap comparison. -/
theorem rollover_conflict_comparison_cex :
    (checkScheduleConflicts dbOvernight 1 100 (some 84600) (some 85500)
        7200).has_time_overlap = false ∧
    100 * daySecs + 84600 < gcalEndInstant 100 (some 82800) 3600 ∧
    100 * daySecs + 85500 > 100 * daySecs + 82800 := by
  refine ⟨by decide, by decide, by decide⟩

/-- C4 amended: the next-day rollover for `end_time < start_time` is
applied in `schedule_meeting`'s event-end construction and in
`get_calendar_events`' end construction — both yield the instant
exactly `(end - start) mod 24h` after the start instant, on the next
day when the end is numerically below the start — and
`schedule_meeting` accepts such input rather than rejecting it; the
conflict-overlap comparison of `check_schedule_conflicts`, however,
compares bare times-of-day without rollover. -/
theorem rollover_end_construction_amended (d s e uid : Nat) (db : DB) (ext : ExtCal)
    (o : SyncOutcome) (m : MeetingArgs) (hs : s < daySecs) (he : e < daySecs) :
    meetingEventEnd d s e = d * daySecs + s + ((e + daySecs - s) % daySecs) ∧
    gcalEndInstant d (some s) e = meetingEventEnd d s e ∧
    (m.start_time = s → m.end_time = some e →
      (scheduleMeeting uid db ext o m).success = true) := by
  refine ⟨?_, ?_, ?_⟩
  · rw [meetingEventEnd]
    by_cases hlt : e < s
    · rw [if_pos hlt]
      have hlt2 : e + daySecs - s < daySecs := by
        simp only [daySecs] at *; omega
      rw [Nat.mod_eq_of_lt hlt2]
      simp only [daySecs] at *
      omega
    · rw [if_neg hlt]
      have hsub : e + daySecs - s = (e - s) + daySecs := by
        simp only [daySecs] at *; omega
      rw [hsub, Nat.add_mod_right, Nat.mod_eq_of_lt (by simp only [daySecs] at *; omega)]
      simp only [daySecs] at *
      omega
  · rw [gcalEndInstant, meetingEventEnd]
    by_cases hlt : e < s
    · rw [if_pos hlt, if_pos hlt]
      ring
    · rw [if_neg hlt, if_neg hlt]
  · intro _ _
    cases o <;> rfl

/-- Concrete overnight meeting arguments, 23:00 to 01:00 on day 100. -/
def mOvernight : MeetingArgs :=
  { title := "late sync", scheduled_date := 100, start_time := 82800
    end_time := some 3600, due_date := none, priority := "medium"
    description := "", meeting_code := none, auto_generate_link := true
    durSec := 7200 }

/-- C4 witness: the amended theorem applied at the 23:00-to-01:00
meeting on day 100 — the event end lands on day 101 and the operation
succeeds. -/
theorem rollover_end_construction_amended_witness :
    meetingEventEnd 100 82800 3600
      = 100 * daySecs + 82800 + ((3600 + daySecs - 82800) % daySecs) :=
  (rollover_end_construction_amended 100 82800 3600 1 dbOvernight ⟨[], 0⟩
    SyncOutcome.noCreds mOvernight (by decide) (by decide)).1

/-- A store for the re-planner: two todos of user 1 relevant for day
100 (one scheduled today, one unscheduled) and one task of user 2 on a
different day. -/
def dbReplanner : DB :=
  { tasks :=
      [{ task_id := 1, user_id := 1, title := "write report", status := "todo"
         priority := "high", category := "general", description := ""
         due_date := none, scheduled_date := some 100
         start_time := none, end_time := none },
       { task_id := 2, user_id := 1, title := "groceries", status := "todo"
         priority := "low", category := "general", description := ""
         due_date := none, scheduled_date := none
         start_time := none, end_time := none },
       { task_id := 99, user_id := 2, title := "other users task", status := "task"
         priority := "medium", category := "general", description := ""
         due_date := none, scheduled_date := some 200
         start_time := none, end_time := none }]
    events := [], links := [], nextTaskId := 100, nextEventId := 1 }

/-- An oracle proposal for day 100: two mutually overlapping windows
for user 1's items plus an entry naming a task outside user 1's
today-set. -/
def oracleProposal : List UpdateEntry :=
  [{ task_id := 1, start_time := 36000, end_time := 43200
     reason := "deep work in the morning", is_meeting := none },
   { task_id := 2, start_time := 39600, end_time := 46800
     reason := "errands before lunch", is_meeting := none },
   { task_id := 99, start_time := 50400, end_time := 54000
     reason := "spurious entry", is_meeting := none }]

/-- C1 counterexample: `update_task_times` commits the whole proposal
and reports success although two committed windows overlap under the
half-open test and one referenced `task_id` is not in the requesting
user's today-set — no entry is dropped, refuting the claimed
validation. -/
theorem replanner_validation_cex :
    (updateTaskTimes 100 dbReplanner oracleProposal).2 = true ∧
    (∃ ra ∈ (updateTaskTimes 100 dbReplanner oracleProposal).1.tasks,
        ra.task_id = 1 ∧ ra.start_time = some 36000 ∧ ra.end_time = some 43200) ∧
    (∃ rb ∈ (updateTaskTimes 100 dbReplanner oracleProposal).1.tasks,
        rb.task_id = 2 ∧ rb.start_time = some 39600 ∧ rb.end_time = some 46800) ∧
    (39600 < 43200 ∧ 46800 > 36000) ∧
    (∀ r ∈ fetchTodaysItems dbReplanner 1 100, r.task_id ≠ 99) ∧
    (∃ rc ∈ (updateTaskTimes 100 dbReplanner oracleProposal).1.tasks,
        rc.task_id = 99 ∧ rc.scheduled_date = some 100 ∧
        rc.start_time = some 50400) := by
  refine ⟨rfl, ?_, ?_, ⟨by decide, by decide⟩, by decide, ?_⟩ <;> decide

/-- The per-row effect of one proposal entry. -/
def applyEntryRow (today : Nat) (u : UpdateEntry) : TaskRow → TaskRow :=
  updTaskRow u.task_id u.start_time u.end_time today (updateEntryStatus u)

/-- The `tasks` table after `update_task_times` is the fold of the
per-entry row maps. -/
theorem updateTaskTimes_tasks (today : Nat) :
    ∀ (us : List UpdateEntry) (db : DB),
      (updateTaskTimes today db us).1.tasks =
        us.foldl (fun ts u => ts.map (applyEntryRow today u)) db.tasks := by
  intro us
  induction us with
  | nil => intro db; rfl
  | cons u rest ih =>
    intro db
    have hstep : (updateTaskTimes today db (u :: rest)).1 =
        (updateTaskTimes today (applyTaskUpdate today u db) rest).1 := rfl
    rw [hstep, ih]
    rfl

/-- Mapping each entry over the table sends a member row to its folded
image. -/
theorem mem_foldl_map (today : Nat) :
    ∀ (us : List UpdateEntry) (ts : List TaskRow) (r : TaskRow), r ∈ ts →
      us.foldl (fun row u => applyEntryRow today u row) r ∈
        us.foldl (fun ts u => ts.map (applyEntryRow today u)) ts := by
  intro us
  induction us with
  | nil => intro ts r hr; exact hr
  | cons u rest ih =>
    intro ts r hr
    exact ih _ _ (List.mem_map_of_mem _ hr)

/-- A row matched by no entry is unchanged by the fold. -/
theorem foldl_applyEntryRow_of_ne (today : Nat) :
    ∀ (us : List UpdateEntry) (r : TaskRow),
      (∀ u ∈ us, u.task_id ≠ r.task_id) →
      us.foldl (fun row u => applyEntryRow today u row) r = r := by
  intro us
  induction us with
  | nil => intro r _; rfl
  | cons u rest ih =>
    intro r h
    have h1 : applyEntryRow today u r = r := by
      rw [applyEntryRow, updTaskRow, if_neg]
      simp only [beq_iff_eq]
      exact fun he => h u (List.mem_cons_self u rest) he.symm
    rw [List.foldl_cons, h1]
    exact ih r fun v hv => h v (List.mem_cons_of_mem u hv)

/-- C1 amended: `update_task_times` performs no validation: it always
reports success and applies every proposal entry unconditionally —
each row whose `task_id` an entry names (whoever owns it) receives that
entry's window, `scheduled_date = today`, and status `meeting` or
`task`; rows named by no entry are untouched; and an empty proposal
(the unparseable-oracle case) leaves the store unchanged.  Stated for
proposals whose entries name pairwise distinct tasks, as the oracle is
prompted to produce. -/
theorem replanner_commit_amended (today : Nat) (db : DB) (updates : List UpdateEntry)
    (hdist : List.Pairwise (fun a b => a.task_id ≠ b.task_id) updates) :
    (updateTaskTimes today db updates).2 = true ∧
    (∀ u ∈ updates, ∀ r ∈ db.tasks, r.task_id = u.task_id →
        { r with start_time := some u.start_time, end_time := some u.end_time,
                 scheduled_date := some today, status := updateEntryStatus u }
          ∈ (updateTaskTimes today db updates).1.tasks) ∧
    (∀ r ∈ db.tasks, (∀ u ∈ updates, u.task_id ≠ r.task_id) →
        r ∈ (updateTaskTimes today db updates).1.tasks) ∧
    (updateTaskTimes today db []).1 = db := by
  refine ⟨rfl, ?_, ?_, rfl⟩
  · intro u hu r hr hid
    obtain ⟨pre, post, rfl⟩ := List.append_of_mem hu
    have hpair := List.pairwise_append.mp hdist
    have hpre : ∀ x ∈ pre, x.task_id ≠ r.task_id := by
      intro x hx
      have := hpair.2.2 x hx u (List.mem_cons_self u post)
      rw [hid]; exact this
    have hpost : ∀ y ∈ post, y.task_id ≠ r.task_id := by
      intro y hy
      have hcons := hpair.2.1
      have := (List.pairwise_cons.mp hcons).1 y hy
      rw [hid]; exact this.symm
    rw [updateTaskTimes_tasks]
    have himg := mem_foldl_map today (pre ++ u :: post) db.tasks r hr
    have heval : (pre ++ u :: post).foldl (fun row v => applyEntryRow today v row) r =
        { r with start_time := some u.start_time, end_time := some u.end_time,
                 scheduled_date := some today, status := updateEntryStatus u } := by
      rw [List.foldl_append, foldl_applyEntryRow_of_ne today pre r hpre, List.foldl_cons]
      have hit : applyEntryRow today u r =
          { r with start_time := some u.start_time, end_time := some u.end_time,
                   scheduled_date := some today, status := updateEntryStatus u } := by
        rw [applyEntryRow, updTaskRow, if_pos]
        simp [hid]
      rw [hit]
      exact foldl_applyEntryRow_of_ne today post _ hpost
    rw [heval] at himg
    exact himg
  · intro r hr hno
    have himg := mem_foldl_map today updates db.tasks r hr
    rw [foldl_applyEntryRow_of_ne today updates r hno] at himg
    rw [updateTaskTimes_tasks]
    exact himg

/-- C1 witness: the amended theorem applied to the concrete proposal —
the batch reports success. -/
theorem replanner_commit_amended_witness :
    (updateTaskTimes 100 dbReplanner oracleProposal).2 = true :=
  (replanner_commit_amended 100 dbReplanner oracleProposal (by decide)).1

/-- The write-back at the row it targets. -/
theorem updEventRow_self (g : Nat) (ms : Bool) (r : EventRow) :
    updEventRow r.event_id g ms r =
      { r with google_event_ref := some g,
               is_calendar_synced := r.is_calendar_synced || ms } := by
  rw [updEventRow, if_pos]
  simp

/-- `add_task_to_calendar` always leaves the inserted task row appended
to the table, whatever the sync outcome. -/
theorem addTask_tasks_eq (today uid : Nat) (db : DB) (ext : ExtCal)
    (o : SyncOutcome) (a : AddTaskArgs) :
    (addTaskToCalendar today uid db ext o a).db.tasks =
      db.tasks ++ [addTaskRow uid db.nextTaskId (addTaskDueD today a)
        (addTaskSchedD today a) a] := by
  cases o <;> (simp only [addTaskToCalendar]; split <;> rfl)

/-- `schedule_meeting` always leaves the inserted task row appended to
the table, whatever the sync outcome. -/
theorem meeting_tasks_eq (uid : Nat) (db : DB) (ext : ExtCal)
    (o : SyncOutcome) (m : MeetingArgs) :
    (scheduleMeeting uid db ext o m).db.tasks =
      db.tasks ++ [meetingTaskRow uid db.nextTaskId (meetingDueD m)
        (meetingEndTod m) m] := by
  cases o <;> (simp only [scheduleMeeting]; try split) <;> rfl

/-- C3: for both creation operations and every sync outcome (connected
and succeeding, not connected, or failing with any error), the
operation reports success, the inserted `tasks` row and the inserted
`calendar_events` row (the latter up to the sync write-back fields) are
present in the final store, every prefix of the execution trace up to
the first external call already contains both local inserts, and the
sync outcome is attached to the message as its annotation suffix. -/
theorem local_commit_precedes_sync (today uid : Nat) (db : DB) (ext : ExtCal)
    (o : SyncOutcome) (a : AddTaskArgs) (m : MeetingArgs) :
    (addTaskToCalendar today uid db ext o a).success = true ∧
    addTaskRow uid db.nextTaskId (addTaskDueD today a) (addTaskSchedD today a) a
      ∈ (addTaskToCalendar today uid db ext o a).db.tasks ∧
    (∃ g b, { addEventRow uid db.nextTaskId db.nextEventId (addTaskDueD today a)
                (addTaskSchedD today a) a with
              google_event_ref := g, is_calendar_synced := b }
        ∈ (addTaskToCalendar today uid db ext o a).db.events) ∧
    ((addTaskToCalendar today uid db ext o a).steps.takeWhile
        (fun s => !s.isExternal)).any Step.isInsertTask = true ∧
    ((addTaskToCalendar today uid db ext o a).steps.takeWhile
        (fun s => !s.isExternal)).any Step.isInsertEvent = true ∧
    (addTaskToCalendar today uid db ext o a).message
      = addTaskBaseMsg a ++ (addTaskToCalendar today uid db ext o a).syncNote ∧
    (scheduleMeeting uid db ext o m).success = true ∧
    meetingTaskRow uid db.nextTaskId (meetingDueD m) (meetingEndTod m) m
      ∈ (scheduleMeeting uid db ext o m).db.tasks ∧
    (∃ g b, { meetingEventRow uid db.nextTaskId db.nextEventId (meetingDueD m)
                (meetingEndTod m) m with
              google_event_ref := g, is_calendar_synced := b }
        ∈ (scheduleMeeting uid db ext o m).db.events) ∧
    ((scheduleMeeting uid db ext o m).steps.takeWhile
        (fun s => !s.isExternal)).any Step.isInsertTask = true ∧
    ((scheduleMeeting uid db ext o m).steps.takeWhile
        (fun s => !s.isExternal)).any Step.isInsertEvent = true := by
  refine ⟨?_, ?_, ?_, ?_, ?_, ?_, ?_, ?_, ?_, ?_, ?_⟩
  · cases o <;> rfl
  · rw [addTask_tasks_eq]
    exact List.mem_append_right _ (List.mem_singleton_self _)
  · cases o with
    | noCreds =>
      refine ⟨none, false, ?_⟩
      simp only [addTaskToCalendar]
      split <;>
        exact List.mem_append_right _ (List.mem_singleton_self _)
    | err msg =>
      refine ⟨none, false, ?_⟩
      simp only [addTaskToCalendar]
      split <;>
        exact List.mem_append_right _ (List.mem_singleton_self _)
    | ok =>
      refine ⟨some ext.nextId, false, ?_⟩
      have hrow := updEventRow_self ext.nextId false
        (addEventRow uid db.nextTaskId db.nextEventId (addTaskDueD today a)
          (addTaskSchedD today a) a)
      simp only [addTaskToCalendar]
      split <;>
        (refine List.mem_map.mpr ⟨_, List.mem_append_right _ (List.mem_singleton_self _), ?_⟩;
         exact hrow)
  · cases o <;> (simp only [addTaskToCalendar]; rfl)
  · cases o <;> (simp only [addTaskToCalendar]; rfl)
  · cases o <;> rfl
  · cases o <;> rfl
  · rw [meeting_tasks_eq]
    exact List.mem_append_right _ (List.mem_singleton_self _)
  · cases o with
    | noCreds =>
      refine ⟨none, false, ?_⟩
      exact List.mem_append_right _ (List.mem_singleton_self _)
    | err msg =>
      refine ⟨none, false, ?_⟩
      exact List.mem_append_right _ (List.mem_singleton_self _)
    | ok =>
      refine ⟨some ext.nextId, true, ?_⟩
      have hrow := updEventRow_self ext.nextId true
        (meetingEventRow uid db.nextTaskId db.nextEventId (meetingDueD m)
          (meetingEndTod m) m)
      simp only [scheduleMeeting]
      split <;>
        (refine List.mem_map.mpr ⟨_, List.mem_append_right _ (List.mem_singleton_self _), ?_⟩;
         exact hrow)
  · cases o <;> rfl
  · cases o <;> rfl

/-- A store holding one already-persisted calendar event with id 1. -/
def dbWithEvent : DB :=
  { tasks := []
    events := [{ event_id := 1, task_id := some 1, user_id := 1
                 start_time := some 36000, end_time := some 39600
                 due_date := none, scheduled_date := some 100
                 event_desc := "demo", event_type := "task"
                 google_event_ref := none, is_calendar_synced := false }]
    links := [], nextTaskId := 2, nextEventId := 2 }

/-- An external calendar with no events yet. -/
def extEmpty : ExtCal := ⟨[], 0⟩

/-- C8 counterexample: performing the external push twice for the same
local `event_id` leaves two events on the external calendar, not one —
the push is an insert, so the claimed external idempotence fails. -/
theorem sync_push_idempotent_cex :
    ((syncPushForEvent
        (syncPushForEvent dbWithEvent extEmpty 1 "TASK demo" 36000 39600).1
        (syncPushForEvent dbWithEvent extEmpty 1 "TASK demo" 36000 39600).2
        1 "TASK demo" 36000 39600).2).events.length = 2 ∧
    ¬ ((syncPushForEvent
        (syncPushForEvent dbWithEvent extEmpty 1 "TASK demo" 36000 39600).1
        (syncPushForEvent dbWithEvent extEmpty 1 "TASK demo" 36000 39600).2
        1 "TASK demo" 36000 39600).2).events.length = 1 := by
  exact ⟨rfl, by decide⟩

/-- C8 amended: only the local write-back is idempotent — repeating the
`UPDATE calendar_events SET google_event_ref ... WHERE event_id ...`
leaves the store as after one application — while the external push
appends a fresh external event on every call, so pushing twice for the
same `event_id` grows the external calendar by exactly two events. -/
theorem sync_push_amended (db : DB) (ext : ExtCal) (eid g s e : Nat)
    (summary : String) (ms : Bool) :
    (syncPushForEvent db ext eid summary s e).2.events.length
      = ext.events.length + 1 ∧
    (syncPushForEvent
        (syncPushForEvent db ext eid summary s e).1
        (syncPushForEvent db ext eid summary s e).2
        eid summary s e).2.events.length
      = ext.events.length + 2 ∧
    applyOp (applyOp db (.updateEventRef eid g ms)) (.updateEventRef eid g ms)
      = applyOp db (.updateEventRef eid g ms) := by
  refine ⟨?_, ?_, ?_⟩
  · simp [syncPushForEvent, extInsert]
  · simp [syncPushForEvent, extInsert]
  · have hfn : ∀ r, updEventRow eid g ms (updEventRow eid g ms r) = updEventRow eid g ms r := by
      intro r
      by_cases h : (r.event_id == eid) = true
      · simp only [updEventRow, h, if_pos]
        simp [Bool.or_assoc]
      · simp only [updEventRow, h]
        simp [h]
    simp only [applyOp]
    congr 1
    rw [List.map_map]
    apply List.map_congr_left
    intro r _
    exact hfn r

/-- Concrete creation arguments used by the classification witness. -/
def aDemo : AddTaskArgs :=
  { title := "write summary", description := "", due_date := some 101
    scheduled_date := some 100, start_time := some 36000
    end_time := some 39600, priority := "medium", category := "general"
    meeting_link := "" }

/-- Concrete meeting arguments used by the classification theorems. -/
def mDemo : MeetingArgs :=
  { title := "standup", scheduled_date := 100, start_time := 36000
    end_time := some 39600, due_date := none, priority := "medium"
    description := "", meeting_code := none, auto_generate_link := true
    durSec := 7200 }

/-- C9 counterexample: `schedule_meeting` attaches no annotation at all
when no credentials are stored (the message does not state that the
mirror is pending), and on an expired-grant error its message carries
only the generic failure text, never the claimed
"authorization expired" classification. -/
theorem meeting_sync_note_cex :
    (scheduleMeeting 1 dbWithEvent extEmpty .noCreds mDemo).syncNote = "" ∧
    (scheduleMeeting 1 dbWithEvent extEmpty
        (.err "invalid_grant: token expired") mDemo).syncNote
      = "\nWarning - Google Calendar sync failed: invalid_grant: token expired" ∧
    containsSub
      ((scheduleMeeting 1 dbWithEvent extEmpty
          (.err "invalid_grant: token expired") mDemo).message)
      "Authorization Expired" = false ∧
    containsSub
      ((scheduleMeeting 1 dbWithEvent extEmpty .noCreds mDemo).message)
      "Not Connected" = false := by
  refine ⟨rfl, rfl, by decide, by decide⟩

/-- C9 amended: `add_task_to_calendar` classifies every sync outcome in
its response annotation — "not connected" without credentials,
"authorization expired" when the error message indicates an expired or
invalid grant, the generic "sync failed, saved locally" otherwise, and
a success notice on success; `schedule_meeting` only reports success or
a single generic failure text and stays silent when not connected. -/
theorem sync_note_classification_amended (o : SyncOutcome)
    (today uid : Nat) (db : DB) (ext : ExtCal) (a : AddTaskArgs) (m : MeetingArgs) :
    (addTaskToCalendar today uid db ext o a).syncNote = addTaskSyncNote o ∧
    (o = .noCreds → (addTaskToCalendar today uid db ext o a).syncNote = notConnectedMsg) ∧
    (∀ msg, o = .err msg → isExpiredGrant msg = true →
        (addTaskToCalendar today uid db ext o a).syncNote = expiredMsg) ∧
    (∀ msg, o = .err msg → isExpiredGrant msg = false →
        (addTaskToCalendar today uid db ext o a).syncNote = syncFailedMsg msg) ∧
    (o = .ok → (addTaskToCalendar today uid db ext o a).syncNote = taskSyncedMsg) ∧
    (scheduleMeeting uid db ext o m).syncNote = meetingSyncNote o ∧
    (o = .noCreds → (scheduleMeeting uid db ext o m).syncNote = "") ∧
    (∀ msg, o = .err msg →
        (scheduleMeeting uid db ext o m).syncNote
          = "\nWarning - Google Calendar sync failed: " ++ msg) := by
  refine ⟨?_, ?_, ?_, ?_, ?_, ?_, ?_, ?_⟩
  · cases o <;> rfl
  · rintro rfl; rfl
  · rintro msg rfl hexp
    show addTaskSyncNote (.err msg) = expiredMsg
    rw [addTaskSyncNote, if_pos hexp]
  · rintro msg rfl hexp
    show addTaskSyncNote (.err msg) = syncFailedMsg msg
    rw [addTaskSyncNote, if_neg (by rw [hexp]; exact Bool.false_ne_true)]
  · rintro rfl; rfl
  · cases o <;> rfl
  · rintro rfl; rfl
  · rintro msg rfl; rfl

/-- C9 witness: the amended theorem applied at an expired-grant error
message — `add_task_to_calendar` answers with the authorization-expired
annotation. -/
theorem sync_note_classification_amended_witness :
    (addTaskToCalendar 99 1 dbWithEvent extEmpty
        (.err "invalid_grant: token expired") aDemo).syncNote = expiredMsg :=
  (sync_note_classification_amended (.err "invalid_grant: token expired")
      99 1 dbWithEvent extEmpty aDemo mDemo).2.2.1
    "invalid_grant: token expired" rfl (by decide)

end Agenda

